import Mathlib

/-!
# Verification of the image-to-PDF catalog converter

Shallow embedding of the catalog pipeline of this repository:
the layout calculator (`calculate_image_size` in `image_to_pdf_converter.py`
and `jpg_to_pdf_converter.py` / `pdf_catalog_merger.py`), the per-image
page renderer (`convert_jpg_to_pdf_fixed`), cover resolution
(`find_cover_files`), source collection (`get_all_files`), the merge
engine (`merge_pdfs`) and the orchestrator (`create_catalog`) of
`pdf_catalog_merger.py`, and the duplicate-removal step of
`convert_images_to_pdf` in `image_to_pdf_converter.py`.

Machine floats of the Python source are embedded as exact rationals;
external collaborators (the raster library, the drawing canvas and the
document reader/writer) are modelled by their documented observable
behaviour: a canvas that was drawn on and saved yields one page whose
content stream holds the drawing operators, and a document file is either
readable with a page count or fails to parse.
-/

namespace Catalog

/-- Embedding of `ImageToPDFConverter.calculate_image_size`
(`image_to_pdf_converter.py`, lines 44-76).  Python floats become exact
rationals. -/
def calculate_image_size (img_width img_height max_width max_height : ℚ)
    (maintain_aspect : Bool) : ℚ × ℚ :=
  if ¬ maintain_aspect then (max_width, max_height)
  else
    let img_aspect := img_width / img_height
    let max_aspect := max_width / max_height
    if img_aspect > max_aspect then
      (max_width, max_width / img_aspect)
    else
      (max_height * img_aspect, max_height)

/-- Embedding of `JPGToPDFConverter.calculate_image_size`
(`jpg_to_pdf_converter.py`, lines 38-66), which computes the usable area
from the page geometry itself; the identical inline computation appears in
`PDFCatalogMerger.convert_jpg_to_pdf_fixed` (`pdf_catalog_merger.py`,
lines 229-241). -/
def jpg_calculate_image_size (page_width page_height margin : ℚ)
    (img_width img_height : ℚ) : ℚ × ℚ :=
  let usable_width := page_width - 2 * margin
  let usable_height := page_height - 2 * margin
  let img_aspect := img_width / img_height
  let page_aspect := usable_width / usable_height
  if img_aspect > page_aspect then
    (usable_width, usable_width / img_aspect)
  else
    (usable_height * img_aspect, usable_height)

/-! ## File-system model for `pdf_catalog_merger.py`

A directory entry carries a structured filename (stem and extension), a
creation timestamp (for date sorting), an `isFile` flag (`Path.is_file`)
and a content tag describing what the external libraries observe in the
file: a decodable image, a corrupt image, a parseable document with a page
count, a document that fails to parse, or a document that fails direct
parsing but would parse after a sanitize rewrite. -/

/-- ASCII lowercasing of one character (model of Python `str.lower` on the
filenames used here). -/
def lowerChar (c : Char) : Char :=
  if 'A' ≤ c ∧ c ≤ 'Z' then Char.ofNat (c.toNat + 32) else c

/-- ASCII lowercasing of a string (model of Python `str.lower`). -/
def lowerString (s : String) : String :=
  ⟨s.data.map lowerChar⟩

/-- Lexicographic comparison of character lists by code point. -/
def leChars : List Char → List Char → Bool
  | [], _ => true
  | _ :: _, [] => false
  | a :: as, b :: bs =>
    if a.val < b.val then true
    else if b.val < a.val then false
    else leChars as bs

/-- Lexicographic string comparison by code point (Python `str`
ordering). -/
def leString (a b : String) : Bool := leChars a.data b.data

/-- Structured filename: `Path.name` is `stem ++ "." ++ ext` (or just the
stem when there is no extension), `Path.suffix` is `"." ++ ext`. -/
structure FileName where
  stem : String
  ext : String
deriving DecidableEq, Repr

/-- Embedding of `Path.name` of the Python source. -/
def FileName.fullName (f : FileName) : String :=
  if f.ext = "" then f.stem else f.stem ++ "." ++ f.ext

/-- Embedding of `file.name.lower()` of the Python source. -/
def FileName.lowerName (f : FileName) : String :=
  lowerString (FileName.fullName f)

/-- Embedding of `file.suffix.lower()` of the Python source. -/
def FileName.suffixLower (f : FileName) : String :=
  if f.ext = "" then "" else "." ++ lowerString f.ext

/-- What the external image / document libraries observe in a file. -/
inductive Content
  | jpgGood
  | jpgCorrupt
  | pdfDoc (pages : Nat)
  | pdfCorrupt
  | pdfSanitizable (pages : Nat)
  | otherFile
deriving DecidableEq, Repr

structure FileEntry where
  fname : FileName
  ctime : Nat
  content : Content
  isFile : Bool
deriving DecidableEq, Repr

/-- State of the input directory and of the temporary conversion
directory `_temp_pdfs_fixed` created inside it; `clock` supplies creation
timestamps for newly written files. -/
structure FS where
  dirFiles : List FileEntry
  tempFiles : List FileEntry
  tempDirExists : Bool
  clock : Nat
deriving DecidableEq, Repr

/-- Value of `self.cover_filename` in `PDFCatalogMerger.__init__`. -/
def cover_filename : String := "cover.pdf"

/-- Value of `self.back_cover_filename` in `PDFCatalogMerger.__init__`. -/
def back_cover_filename : String := "back_cover.pdf"

/-- Name of the temporary conversion directory in `get_all_files`. -/
def temp_dir_name : String := "_temp_pdfs_fixed"

/-- One step of the scanning loop of `PDFCatalogMerger.find_cover_files`
(`pdf_catalog_merger.py`, lines 98-104): for a file with suffix `.pdf`, a
case-insensitive name match sets the cover or back-cover path. -/
def scanStep (acc : Option FileEntry × Option FileEntry) (f : FileEntry) :
    Option FileEntry × Option FileEntry :=
  if f.isFile ∧ f.fname.suffixLower = ".pdf" then
    if f.fname.lowerName = lowerString cover_filename then (some f, acc.2)
    else if f.fname.lowerName = lowerString back_cover_filename then (acc.1, some f)
    else acc
  else acc

/-- The scanning loop of `find_cover_files`. -/
def scanCovers (files : List FileEntry) : Option FileEntry × Option FileEntry :=
  files.foldl scanStep (none, none)

/-- The document written by `create_simple_cover`: the external canvas,
drawn on with text and saved, yields a one-page document (modelled
observable behaviour of the drawing library; the source treats its
success as the normal case). -/
def coverEntry (name : String) (clock : Nat) : FileEntry :=
  { fname := { stem := name, ext := "pdf" }, ctime := clock,
    content := Content.pdfDoc 1, isFile := true }

/-- Embedding of `PDFCatalogMerger.find_cover_files`
(`pdf_catalog_merger.py`, lines 84-128): scan for existing covers; for
each missing one, synthesize it via `create_simple_cover`, writing
`cover.pdf` / `back_cover.pdf` into the input directory itself. -/
def find_cover_files (fs : FS) : Option FileEntry × Option FileEntry × FS :=
  let scanned := scanCovers fs.dirFiles
  let step1 : Option FileEntry × FS :=
    match scanned.1 with
    | some f => (some f, fs)
    | none =>
        let e := coverEntry "cover" fs.clock
        (some e, { fs with dirFiles := fs.dirFiles ++ [e], clock := fs.clock + 1 })
  let step2 : Option FileEntry × FS :=
    match scanned.2 with
    | some f => (some f, step1.2)
    | none =>
        let e := coverEntry "back_cover" step1.2.clock
        let fs2 := { step1.2 with dirFiles := step1.2.dirFiles ++ [e], clock := step1.2.clock + 1 }
        (some e, fs2)
  (step1.1, step2.1, step2.2)

/-- Outcome of `convert_jpg_to_pdf_fixed` inside `get_all_files`: a
decodable image renders to a one-page document that passes the size
check; a corrupt image raises in `Image.open` and the conversion reports
failure (the produced document and size threshold are analysed in detail
in `convert_jpg_to_pdf_model` below). -/
def convertSucceeds : Content → Bool
  | Content.jpgGood => true
  | _ => false

/-- Recognized raster extensions in `get_all_files`. -/
def image_exts : List String := [".jpg", ".jpeg"]

/-- The classification loop of `PDFCatalogMerger.get_all_files`
(`pdf_catalog_merger.py`, lines 292-316). Returns the collected source
list, the temporary files written by successful conversions, the number
of failed conversions reported, and the advanced clock. -/
def collectFiles : List FileEntry → Nat → List FileEntry × List FileEntry × Nat × Nat
  | [], clock => ([], [], 0, clock)
  | f :: rest, clock =>
    if ¬ f.isFile then collectFiles rest clock
    else if f.fname.lowerName = lowerString cover_filename ∨
        f.fname.lowerName = lowerString back_cover_filename then
      collectFiles rest clock
    else if f.fname.fullName = temp_dir_name then collectFiles rest clock
    else if f.fname.suffixLower ∈ image_exts then
      if convertSucceeds f.content then
        let t : FileEntry :=
          { fname := { stem := f.fname.stem, ext := "pdf" }, ctime := clock,
            content := Content.pdfDoc 1, isFile := true }
        let r := collectFiles rest (clock + 1)
        (t :: r.1, t :: r.2.1, r.2.2.1, r.2.2.2)
      else
        let r := collectFiles rest clock
        (r.1, r.2.1, r.2.2.1 + 1, r.2.2.2)
    else if f.fname.suffixLower = ".pdf" then
      let r := collectFiles rest clock
      (f :: r.1, r.2.1, r.2.2.1, r.2.2.2)
    else collectFiles rest clock

/-- Stable insertion into a sorted list (model of Python's stable
`list.sort`). -/
def insertLe {α : Type} (le : α → α → Bool) (x : α) : List α → List α
  | [] => [x]
  | y :: ys => if le x y then x :: y :: ys else y :: insertLe le x ys

/-- Stable insertion sort (model of Python's stable `list.sort`). -/
def sortLe {α : Type} (le : α → α → Bool) : List α → List α
  | [] => []
  | x :: xs => insertLe le x (sortLe le xs)

/-- The `x.name.lower()` comparison used by the name sort mode. -/
def leByName (a b : FileEntry) : Bool :=
  leString a.fname.lowerName b.fname.lowerName

/-- The `x.stat().st_ctime` comparison used by the date sort mode. -/
def leByDate (a b : FileEntry) : Bool :=
  decide (a.ctime ≤ b.ctime)

/-- The sorting step of `get_all_files` (`pdf_catalog_merger.py`, lines
318-322): unlike `get_inner_pages`, an unknown mode sorts nothing. -/
def sortFiles (sort_by : String) (files : List FileEntry) : List FileEntry :=
  if lowerString sort_by = "name" then sortLe leByName files
  else if lowerString sort_by = "date" then sortLe leByDate files
  else files

/-- Embedding of `PDFCatalogMerger.get_all_files` (`pdf_catalog_merger.py`,
lines 276-324): create the temp directory, classify every entry of the
input directory, and sort. Returns (sorted source list, new state, number
of skipped conversion failures). -/
def get_all_files (fs : FS) (sort_by : String) : List FileEntry × FS × Nat :=
  let r := collectFiles fs.dirFiles fs.clock
  let fs1 := { fs with tempDirExists := true, tempFiles := fs.tempFiles ++ r.2.1, clock := r.2.2.2 }
  (sortFiles sort_by r.1, fs1, r.2.2.1)

/-- Behaviour of `PdfReader` on a file: a parseable document yields its page list; a
corrupt document — and equally one that would only open after a sanitize
rewrite, which the source never performs — raises. A non-document file
(e.g. an image) also fails to parse. -/
def readPdfPages : Content → Option Nat
  | Content.pdfDoc n => some n
  | _ => none

/-- The per-item loop of `PDFCatalogMerger.merge_pdfs`
(`pdf_catalog_merger.py`, lines 340-354): parse failures and zero-page
documents are skipped, otherwise all pages are appended. Returns (total
pages appended, number of items whose pages were appended). -/
def mergeLoop : List FileEntry → Nat × Nat
  | [] => (0, 0)
  | f :: rest =>
    let r := mergeLoop rest
    match readPdfPages f.content with
    | none => r
    | some 0 => r
    | some n => (r.1 + n, r.2 + 1)

/-- Embedding of `PDFCatalogMerger.merge_pdfs` (`pdf_catalog_merger.py`,
lines 326-381): after the loop, failure is reported when zero pages were
accumulated; otherwise the writer (holding at least one page) serializes
to a non-empty file and success is reported with the page count. -/
def merge_pdfs (pdf_paths : List FileEntry) : Bool × Nat :=
  let total := (mergeLoop pdf_paths).1
  if total = 0 then (false, 0) else (true, total)

/-- The ordered list assembled in `create_catalog`
(`pdf_catalog_merger.py`, lines 424-436): cover first, inner pages, back
cover last. -/
def build_pdf_order (cover back : Option FileEntry)
    (inner : List FileEntry) : List FileEntry :=
  cover.toList ++ inner ++ back.toList

/-- The cover/back-cover/order triple produced by a `create_catalog` run,
exposed for the ordering invariant. -/
def assemble_order (fs : FS) (sort_by : String) :
    Option FileEntry × Option FileEntry × List FileEntry :=
  let c := find_cover_files fs
  let g := get_all_files c.2.2 sort_by
  (c.1, c.2.1, build_pdf_order c.1 c.2.1 g.1)

/-- The `shutil.rmtree` removal of the temp directory in `create_catalog`
(`pdf_catalog_merger.py`, lines 448-453). -/
def cleanupTemp (fs : FS) : FS :=
  { fs with tempFiles := [], tempDirExists := false }

/-- Observable outcome of a `create_catalog` run. -/
structure RunResult where
  success : Bool
  catalogPages : Option Nat
  skipped : Nat
  finalFS : FS
deriving DecidableEq, Repr

/-- Embedding of `PDFCatalogMerger.create_catalog`
(`pdf_catalog_merger.py`, lines 383-457): resolve covers, collect and
convert sources, assemble the order, merge; on merge success remove the
temp directory and report success, on merge failure return immediately
(leaving the temp directory in place). -/
def create_catalog (fs : FS) (sort_by : String) : RunResult :=
  let c := find_cover_files fs
  let g := get_all_files c.2.2 sort_by
  if g.1 = [] ∧ c.1 = none ∧ c.2.1 = none then
    { success := false, catalogPages := none, skipped := g.2.2, finalFS := g.2.1 }
  else
    let m := merge_pdfs (build_pdf_order c.1 c.2.1 g.1)
    if m.1 then
      { success := true, catalogPages := some m.2, skipped := g.2.2,
        finalFS := cleanupTemp g.2.1 }
    else
      { success := false, catalogPages := none, skipped := g.2.2,
        finalFS := g.2.1 }

/-! ## Page-renderer model for `convert_jpg_to_pdf_fixed` -/

/-- One operator of a page content stream. -/
inductive PageOp
  | drawImage (x y w h : ℚ)
  | drawText
deriving DecidableEq, Repr

/-- A document as the reader reports it back: a list of pages, each a
content stream (list of operators). -/
structure PdfDocModel where
  pages : List (List PageOp)
deriving DecidableEq, Repr

/-- The raster input as the image library observes it. -/
structure ImageFile where
  decodeOk : Bool
  width : Nat
  height : Nat
deriving DecidableEq, Repr

/-- Byte size of the file the canvas writes on save (determined by the
environment: compression, image data). -/
structure RenderEnv where
  outSize : Nat
deriving DecidableEq, Repr

/-- Embedding of `PDFCatalogMerger.convert_jpg_to_pdf_fixed`
(`pdf_catalog_merger.py`, lines 204-274).  A failed decode raises and
reports failure with no document; otherwise the layout is computed
exactly as in the source, the image is drawn at the computed rectangle on
a fresh canvas, and the canvas is saved — the external canvas, drawn on
once and saved, yields a one-page document whose content stream holds the
drawImage operator.  Success additionally requires the written file's
byte size to exceed 1000 bytes. Returns (document written, reported
success). -/
def convert_jpg_to_pdf_model (img : ImageFile) (env : RenderEnv)
    (page_width page_height margin : ℚ) : Option PdfDocModel × Bool :=
  if ¬ img.decodeOk then (none, false)
  else
    let usable_width := page_width - 2 * margin
    let usable_height := page_height - 2 * margin
    let img_aspect := (img.width : ℚ) / (img.height : ℚ)
    let page_aspect := usable_width / usable_height
    let dims : ℚ × ℚ :=
      if img_aspect > page_aspect then (usable_width, usable_width / img_aspect)
      else (usable_height * img_aspect, usable_height)
    let x := margin + (usable_width - dims.1) / 2
    let y := margin + (usable_height - dims.2) / 2
    let doc : PdfDocModel := { pages := [[PageOp.drawImage x y dims.1 dims.2]] }
    (some doc, decide (env.outSize > 1000))

/-! ## Duplicate removal in `image_to_pdf_converter.py` -/

/-- A discovered path: the literal path string (what `Path` equality and
the `seen` set compare) and the resolved target it denotes on disk (two
literal paths may alias the same resolved target, e.g. via a symlink). -/
structure IPath where
  pathStr : String
  resolved : String
deriving DecidableEq, Repr

/-- The `seen`-set loop of `ImageToPDFConverter.convert_images_to_pdf`
(`image_to_pdf_converter.py`, lines 224-231): keep a path only if its
literal `Path` value was not seen before, preserving order. -/
def removeDuplicatesGo (seen : List String) : List IPath → List IPath
  | [] => []
  | f :: rest =>
    if f.pathStr ∈ seen then removeDuplicatesGo seen rest
    else f :: removeDuplicatesGo (f.pathStr :: seen) rest

/-- Duplicate removal as performed by `convert_images_to_pdf`. -/
def removeDuplicates (paths : List IPath) : List IPath :=
  removeDuplicatesGo [] paths

/-- The `x.name.lower()` comparison for the path sort. -/
def lePath (x y : IPath) : Bool :=
  leString (lowerString x.pathStr) (lowerString y.pathStr)

/-- The alphabetical sort of `convert_images_to_pdf`. -/
def sortPaths (paths : List IPath) : List IPath :=
  sortLe lePath paths

/-- The dedup-then-sort pipeline of `convert_images_to_pdf`
(`image_to_pdf_converter.py`, lines 218-234): remove duplicates while
preserving order, then sort alphabetically by lower-cased name. -/
def collect_image_paths (image_paths : List IPath) : List IPath :=
  sortPaths (removeDuplicates image_paths)

/-! ## Concrete fixtures -/

/-- A directory entry for an image file. -/
def jpgEntry (s : String) (t : Nat) (good : Bool) : FileEntry :=
  { fname := { stem := s, ext := "jpg" }, ctime := t,
    content := if good then Content.jpgGood else Content.jpgCorrupt,
    isFile := true }

/-- A directory entry for an existing document file. -/
def pdfEntry (s : String) (t : Nat) (c : Content) : FileEntry :=
  { fname := { stem := s, ext := "pdf" }, ctime := t, content := c,
    isFile := true }

/-- Directory of the partial-failure scenario: five decodable images, one
corrupt image, no cover files. -/
def partialFailureDir : FS :=
  { dirFiles := [jpgEntry "img1" 0 true, jpgEntry "img2" 1 true,
      jpgEntry "img3" 2 true, jpgEntry "img4" 3 true, jpgEntry "img5" 4 true,
      jpgEntry "broken" 5 false],
    tempFiles := [], tempDirExists := false, clock := 10 }

/-- Directory where every merge source fails to parse: existing corrupt
cover and back-cover documents plus one corrupt image. -/
def allCorruptDir : FS :=
  { dirFiles := [pdfEntry "cover" 0 Content.pdfCorrupt,
      pdfEntry "back_cover" 1 Content.pdfCorrupt, jpgEntry "broken" 2 false],
    tempFiles := [], tempDirExists := false, clock := 10 }

/-- Directory holding one decodable image (a run that succeeds). -/
def oneImageDir : FS :=
  { dirFiles := [jpgEntry "photo" 0 true], tempFiles := [],
    tempDirExists := false, clock := 10 }

/-- Empty input directory. -/
def emptyDir : FS :=
  { dirFiles := [], tempFiles := [], tempDirExists := false, clock := 0 }

/-- Directory holding a previously produced catalog output file next to a
regular inner page. -/
def staleCatalogDir : FS :=
  { dirFiles := [pdfEntry "catalog" 0 (Content.pdfDoc 4),
      pdfEntry "page1" 1 (Content.pdfDoc 1)],
    tempFiles := [], tempDirExists := false, clock := 10 }

/-- A document that fails direct open but would open with 3 pages after a
sanitize rewrite. -/
def sanitizableEntry : FileEntry := pdfEntry "doc" 0 (Content.pdfSanitizable 3)

/-- Pages a single source item contributes in the merge loop (zero when
it fails to parse or has no pages). -/
def pageContrib (f : FileEntry) : Nat :=
  match readPdfPages f.content with
  | some (n + 1) => n + 1
  | _ => 0

/-- Whether a single source item reaches the pages-appended state (1) or
is skipped (0). -/
def itemContrib (f : FileEntry) : Nat :=
  match readPdfPages f.content with
  | some (_ + 1) => 1
  | _ => 0

/-- A directory listing contains an entry with the given lower-cased
name. -/
def containsName (l : List FileEntry) (s : String) : Bool :=
  l.any (fun e => e.fname.lowerName == s)

/-- Two distinct literal paths aliasing the same resolved file (e.g. a
symlink next to its target). -/
def aliasA : IPath := { pathStr := "a.jpg", resolved := "target.jpg" }

/-- Second alias of the same resolved file as `aliasA`. -/
def aliasB : IPath := { pathStr := "b.jpg", resolved := "target.jpg" }

/-- A readable two-page document entry. -/
def twoPageEntry : FileEntry := pdfEntry "a" 0 (Content.pdfDoc 2)

/-- A document entry that fails to parse. -/
def corruptEntry : FileEntry := pdfEntry "bad" 1 Content.pdfCorrupt

/-! ## Theorems -/

/-- C1: for positive image dimensions and positive usable area, the layout
calculator returns draw dimensions bounded by the usable area, preserving
the image aspect ratio to within 1e-6 (here: exactly), fitting to the
usable width when the image is relatively wider and to the usable height
otherwise; and the jpg-converter variant agrees with the general one on
the usable area derived from the page geometry. -/
theorem c1_layout_calculator (img_width img_height max_width max_height : ℚ)
    (hiw : 0 < img_width) (hih : 0 < img_height)
    (hmw : 0 < max_width) (hmh : 0 < max_height) :
    (calculate_image_size img_width img_height max_width max_height true).1 ≤ max_width ∧
    (calculate_image_size img_width img_height max_width max_height true).2 ≤ max_height ∧
    |(calculate_image_size img_width img_height max_width max_height true).1 /
        (calculate_image_size img_width img_height max_width max_height true).2 -
      img_width / img_height| < 1 / 1000000 ∧
    (img_width / img_height > max_width / max_height →
      calculate_image_size img_width img_height max_width max_height true =
        (max_width, max_width / (img_width / img_height))) ∧
    (¬ img_width / img_height > max_width / max_height →
      calculate_image_size img_width img_height max_width max_height true =
        (max_height * (img_width / img_height), max_height)) ∧
    (∀ page_width page_height margin : ℚ,
      jpg_calculate_image_size page_width page_height margin img_width img_height =
        calculate_image_size img_width img_height (page_width - 2 * margin)
          (page_height - 2 * margin) true) := by
  have hA : 0 < img_width / img_height := div_pos hiw hih
  have hP : 0 < max_width / max_height := div_pos hmw hmh
  by_cases hcase : img_width / img_height > max_width / max_height
  · have hres : calculate_image_size img_width img_height max_width max_height true =
        (max_width, max_width / (img_width / img_height)) := by
      simp [calculate_image_size, hcase]
    have hlt : max_width < img_width / img_height * max_height :=
      (div_lt_iff₀ hmh).mp hcase
    refine ⟨?_, ?_, ?_, fun _ => hres, fun hc => absurd hcase hc, ?_⟩
    · rw [hres]
    · rw [hres]
      rw [div_le_iff₀ hA]
      nlinarith
    · rw [hres]
      have hw : max_width ≠ 0 := ne_of_gt hmw
      have hA' : img_width / img_height ≠ 0 := ne_of_gt hA
      have hratio : max_width / (max_width / (img_width / img_height)) =
          img_width / img_height := by
        field_simp
        ring
      rw [hratio, sub_self, abs_zero]
      norm_num
    · intro pw ph m
      simp [jpg_calculate_image_size, calculate_image_size]
  · have hres : calculate_image_size img_width img_height max_width max_height true =
        (max_height * (img_width / img_height), max_height) := by
      simp [calculate_image_size, hcase]
    have hle : img_width / img_height ≤ max_width / max_height := not_lt.mp hcase
    refine ⟨?_, ?_, ?_, fun hc => absurd hc hcase, fun _ => hres, ?_⟩
    · rw [hres]
      have h1 : max_height * (img_width / img_height) ≤
          max_height * (max_width / max_height) :=
        mul_le_mul_of_nonneg_left hle (le_of_lt hmh)
      have h2 : max_height * (max_width / max_height) = max_width :=
        mul_div_cancel₀ max_width (ne_of_gt hmh)
      calc max_height * (img_width / img_height) ≤
          max_height * (max_width / max_height) := h1
        _ = max_width := h2
    · rw [hres]
    · rw [hres]
      have hh : max_height ≠ 0 := ne_of_gt hmh
      have hratio : max_height * (img_width / img_height) / max_height =
          img_width / img_height := by
        rw [mul_comm, mul_div_assoc, div_self hh, mul_one]
      rw [hratio, sub_self, abs_zero]
      norm_num
    · intro pw ph m
      simp [jpg_calculate_image_size, calculate_image_size]

/-- Witness for C1 at the concrete image 4×3 on a 10×10 usable area. -/
theorem c1_layout_calculator_witness :
    (calculate_image_size 4 3 10 10 true).1 ≤ 10 ∧
    (calculate_image_size 4 3 10 10 true).2 ≤ 10 ∧
    |(calculate_image_size 4 3 10 10 true).1 /
        (calculate_image_size 4 3 10 10 true).2 - 4 / 3| < 1 / 1000000 := by
  have h := c1_layout_calculator 4 3 10 10 (by norm_num) (by norm_num)
    (by norm_num) (by norm_num)
  exact ⟨h.1, h.2.1, h.2.2.1⟩


/-! ### Sorting lemmas -/

/-- Insertion produces a permutation of consing. -/
theorem insertLe_perm {α : Type} (le : α → α → Bool) (x : α) (l : List α) :
    List.Perm (insertLe le x l) (x :: l) := by
  induction l with
  | nil => exact List.Perm.refl _
  | cons y ys ih =>
    by_cases h : le x y
    · simp [insertLe, h]
    · simp only [insertLe, h, if_neg, Bool.false_eq_true, not_false_iff, ite_false]
      exact List.Perm.trans (List.Perm.cons y ih) (List.Perm.swap x y ys)

/-- Insertion sort produces a permutation of the input. -/
theorem sortLe_perm {α : Type} (le : α → α → Bool) (l : List α) :
    List.Perm (sortLe le l) l := by
  induction l with
  | nil => exact List.Perm.refl _
  | cons x xs ih =>
    exact List.Perm.trans (insertLe_perm le x (sortLe le xs)) (List.Perm.cons x ih)

/-- The sort step of `get_all_files` permutes its input. -/
theorem sortFiles_perm (sort_by : String) (l : List FileEntry) :
    List.Perm (sortFiles sort_by l) l := by
  unfold sortFiles
  by_cases h1 : lowerString sort_by = "name"
  · simp only [h1, if_pos]
    exact sortLe_perm _ _
  · by_cases h2 : lowerString sort_by = "date"
    · simp [h1, h2, sortLe_perm]
    · simp [h1, h2]

/-- Sorting preserves membership. -/
theorem mem_sortFiles (sort_by : String) (l : List FileEntry) (f : FileEntry) :
    f ∈ sortFiles sort_by l ↔ f ∈ l :=
  (sortFiles_perm sort_by l).mem_iff

/-! ### Merge-loop lemmas -/

/-- The merge loop computes the sums of the per-item page and item
contributions. -/
theorem mergeLoop_eq_sum (l : List FileEntry) :
    mergeLoop l = ((l.map pageContrib).sum, (l.map itemContrib).sum) := by
  induction l with
  | nil => rfl
  | cons f rest ih =>
    cases hread : readPdfPages f.content with
    | none =>
      simp [mergeLoop, ih, pageContrib, itemContrib, hread]
    | some n =>
      cases n with
      | zero => simp [mergeLoop, ih, pageContrib, itemContrib, hread]
      | succ m =>
        simp [mergeLoop, ih, pageContrib, itemContrib, hread]
        omega

/-- The merge loop is invariant under permutation of the sources. -/
theorem mergeLoop_perm (l1 l2 : List FileEntry) (h : List.Perm l1 l2) :
    mergeLoop l1 = mergeLoop l2 := by
  rw [mergeLoop_eq_sum, mergeLoop_eq_sum,
    (h.map pageContrib).sum_eq, (h.map itemContrib).sum_eq]

/-- Appending source lists adds their merge-loop results. -/
theorem mergeLoop_append (l1 l2 : List FileEntry) :
    mergeLoop (l1 ++ l2) =
      ((mergeLoop l1).1 + (mergeLoop l2).1, (mergeLoop l1).2 + (mergeLoop l2).2) := by
  simp [mergeLoop_eq_sum]

/-- A list of one-page documents merges to one page per item. -/
theorem mergeLoop_all_ones (l : List FileEntry)
    (h : ∀ g ∈ l, g.content = Content.pdfDoc 1) :
    mergeLoop l = (l.length, l.length) := by
  induction l with
  | nil => rfl
  | cons f rest ih =>
    have hf : f.content = Content.pdfDoc 1 := h f (List.mem_cons_self f rest)
    have hrest := ih (fun g hg => h g (List.mem_cons_of_mem f hg))
    simp [mergeLoop, hrest, readPdfPages, hf]

/-- Zero pages are appended exactly when zero items are appended. -/
theorem mergeLoop_zero_iff (l : List FileEntry) :
    (mergeLoop l).1 = 0 ↔ (mergeLoop l).2 = 0 := by
  induction l with
  | nil => simp [mergeLoop]
  | cons f rest ih =>
    cases hread : readPdfPages f.content with
    | none => simpa [mergeLoop, hread] using ih
    | some n =>
      cases n with
      | zero => simpa [mergeLoop, hread] using ih
      | succ m => simp [mergeLoop, hread]

/-! ### Cover-scan and collection lemmas -/

/-- A directory with no `.pdf`-suffixed file yields no covers from the
scan. -/
theorem scanCovers_no_pdf (l : List FileEntry)
    (h : ∀ f ∈ l, f.fname.suffixLower ≠ ".pdf") :
    scanCovers l = (none, none) := by
  have key : ∀ (l' : List FileEntry) (acc : Option FileEntry × Option FileEntry),
      (∀ f ∈ l', f.fname.suffixLower ≠ ".pdf") → l'.foldl scanStep acc = acc := by
    intro l'
    induction l' with
    | nil => intro acc _; rfl
    | cons f rest ih =>
      intro acc hall
      have hf : f.fname.suffixLower ≠ ".pdf" := hall f (List.mem_cons_self f rest)
      have hstep : scanStep acc f = acc := by
        unfold scanStep
        rw [if_neg]
        intro hc
        exact hf hc.2
      rw [List.foldl_cons, hstep]
      exact ih acc (fun g hg => hall g (List.mem_cons_of_mem f hg))
  exact key l (none, none) h

/-- An image extension is not the document extension. -/
theorem image_ext_ne_pdf (s : String) (h : s ∈ image_exts) : s ≠ ".pdf" := by
  simp only [image_exts, List.mem_cons, List.not_mem_nil, or_false] at h
  rcases h with h | h
  · subst h; decide
  · subst h; decide

/-- The collection loop skips an entry bearing a cover name. -/
theorem collectFiles_skip_cover (f : FileEntry) (rest : List FileEntry) (c : Nat)
    (h : f.fname.lowerName = lowerString cover_filename ∨
      f.fname.lowerName = lowerString back_cover_filename) :
    collectFiles (f :: rest) c = collectFiles rest c := by
  by_cases hf : f.isFile
  · simp [collectFiles, hf, h]
  · simp [collectFiles, hf]

/-- Appending cover-named entries to a directory does not change the
collection result. -/
theorem collectFiles_append_covers (l : List FileEntry) (tail : List FileEntry) (c : Nat)
    (h : ∀ f ∈ tail, f.fname.lowerName = lowerString cover_filename ∨
      f.fname.lowerName = lowerString back_cover_filename) :
    collectFiles (l ++ tail) c = collectFiles l c := by
  induction l generalizing c with
  | nil =>
    simp only [List.nil_append]
    induction tail with
    | nil => rfl
    | cons f rest ih =>
      rw [collectFiles_skip_cover f rest c (h f (List.mem_cons_self f rest))]
      exact ih (fun g hg => h g (List.mem_cons_of_mem f hg))
  | cons f l ih =>
    simp only [List.cons_append, collectFiles]
    split_ifs <;> simp [ih]

/-- Collecting a directory of image files: every produced source is a
one-page converted document, one per decodable image, and every corrupt
image is counted as skipped. -/
theorem collectFiles_all_jpg (l : List FileEntry) (c : Nat)
    (h : ∀ f ∈ l, f.isFile = true ∧ f.fname.suffixLower ∈ image_exts ∧
      f.fname.lowerName ≠ lowerString cover_filename ∧
      f.fname.lowerName ≠ lowerString back_cover_filename ∧
      f.fname.fullName ≠ temp_dir_name ∧
      (f.content = Content.jpgGood ∨ f.content = Content.jpgCorrupt)) :
    (∀ g ∈ (collectFiles l c).1, g.content = Content.pdfDoc 1) ∧
    (collectFiles l c).1.length =
      l.countP (fun f => f.content == Content.jpgGood) ∧
    (collectFiles l c).2.2.1 =
      l.countP (fun f => f.content == Content.jpgCorrupt) := by
  induction l generalizing c with
  | nil => simp [collectFiles]
  | cons f rest ih =>
    obtain ⟨hfile, hext, hnc, hnb, hnt, hcontent⟩ := h f (List.mem_cons_self f rest)
    have hrest := fun c' => ih c' (fun g hg => h g (List.mem_cons_of_mem f hg))
    rcases hcontent with hgood | hbad
    · have hconv : convertSucceeds f.content = true := by rw [hgood]; rfl
      have heq : collectFiles (f :: rest) c =
          (⟨⟨f.fname.stem, "pdf"⟩, c, Content.pdfDoc 1, true⟩ :: (collectFiles rest (c + 1)).1,
           ⟨⟨f.fname.stem, "pdf"⟩, c, Content.pdfDoc 1, true⟩ :: (collectFiles rest (c + 1)).2.1,
           (collectFiles rest (c + 1)).2.2.1, (collectFiles rest (c + 1)).2.2.2) := by
        simp [collectFiles, hfile, hnc, hnb, hnt, hext, hconv]
      obtain ⟨ih1, ih2, ih3⟩ := hrest (c + 1)
      rw [heq]
      refine ⟨?_, ?_, ?_⟩
      · intro g hg
        rcases List.mem_cons.mp hg with hg | hg
        · rw [hg]
        · exact ih1 g hg
      · have hb : (f.content == Content.jpgGood) = true := by rw [hgood]; rfl
        simp [List.countP_cons, ih2, hb]
      · have hb : (f.content == Content.jpgCorrupt) = false := by rw [hgood]; rfl
        simp [List.countP_cons, ih3, hb]
    · have hconv : convertSucceeds f.content = false := by rw [hbad]; rfl
      have heq : collectFiles (f :: rest) c =
          ((collectFiles rest c).1, (collectFiles rest c).2.1,
           (collectFiles rest c).2.2.1 + 1, (collectFiles rest c).2.2.2) := by
        simp [collectFiles, hfile, hnc, hnb, hnt, hext, hconv]
      obtain ⟨ih1, ih2, ih3⟩ := hrest c
      rw [heq]
      refine ⟨ih1, ?_, ?_⟩
      · have hb : (f.content == Content.jpgGood) = false := by rw [hbad]; rfl
        simp [List.countP_cons, ih2, hb]
      · have hb : (f.content == Content.jpgCorrupt) = true := by rw [hbad]; rfl
        simp [List.countP_cons, ih3, hb]

/-- A document-suffixed file that is not cover-named and not the temp
directory is collected as an inner page. -/
theorem mem_collectFiles_pdf (l : List FileEntry) (c : Nat) (f : FileEntry)
    (hmem : f ∈ l) (hfile : f.isFile = true)
    (hnc : f.fname.lowerName ≠ lowerString cover_filename)
    (hnb : f.fname.lowerName ≠ lowerString back_cover_filename)
    (hnt : f.fname.fullName ≠ temp_dir_name)
    (hs : f.fname.suffixLower = ".pdf") :
    f ∈ (collectFiles l c).1 := by
  have hpdf_not_img : (".pdf" : String) ∉ image_exts := by decide
  induction l generalizing c with
  | nil => cases hmem
  | cons g rest ih =>
    rcases List.mem_cons.mp hmem with hg | hg
    · subst hg
      simp [collectFiles, hfile, hnc, hnb, hnt, hs, hpdf_not_img]
    · have ihc : ∀ c', f ∈ (collectFiles rest c').1 := fun c' => ih c' hg
      by_cases h1 : g.isFile
      · by_cases h2 : g.fname.lowerName = lowerString cover_filename ∨
            g.fname.lowerName = lowerString back_cover_filename
        · simpa [collectFiles, h1, h2] using ihc c
        · by_cases h3 : g.fname.fullName = temp_dir_name
          · simpa [collectFiles, h1, h2, h3] using ihc c
          · by_cases h4 : g.fname.suffixLower ∈ image_exts
            · by_cases h5 : convertSucceeds g.content = true
              · have : f ∈ (⟨⟨g.fname.stem, "pdf"⟩, c, Content.pdfDoc 1, true⟩ ::
                    (collectFiles rest (c + 1)).1 : List FileEntry) :=
                  List.mem_cons_of_mem _ (ihc (c + 1))
                simpa [collectFiles, h1, h2, h3, h4, h5] using this
              · simp only [Bool.not_eq_true] at h5
                simpa [collectFiles, h1, h2, h3, h4, h5] using ihc c
            · by_cases h6 : g.fname.suffixLower = ".pdf"
              · have : f ∈ g :: (collectFiles rest c).1 :=
                  List.mem_cons_of_mem g (ihc c)
                simpa [collectFiles, h1, h2, h3, h4, h6, hpdf_not_img] using this
              · simpa [collectFiles, h1, h2, h3, h4, h6] using ihc c
      · simpa [collectFiles, h1] using ihc c

/-- When the scan finds no covers, `find_cover_files` synthesizes both
and appends them to the input directory listing. -/
theorem find_cover_files_create (fs : FS) (h : scanCovers fs.dirFiles = (none, none)) :
    find_cover_files fs =
      (some (coverEntry "cover" fs.clock),
       some (coverEntry "back_cover" (fs.clock + 1)),
       ⟨(fs.dirFiles ++ [coverEntry "cover" fs.clock]) ++
           [coverEntry "back_cover" (fs.clock + 1)],
         fs.tempFiles, fs.tempDirExists, fs.clock + 1 + 1⟩) := by
  simp [find_cover_files, h]

/-- A present cover heads the assembled order. -/
theorem build_pdf_order_head (e : FileEntry) (b : Option FileEntry)
    (inner : List FileEntry) :
    (build_pdf_order (some e) b inner).head? = some e := by
  simp [build_pdf_order]

/-- A present back cover ends the assembled order. -/
theorem build_pdf_order_last (c : Option FileEntry) (e : FileEntry)
    (inner : List FileEntry) :
    (build_pdf_order c (some e) inner).getLast? = some e := by
  unfold build_pdf_order
  simp

/-- C3: in every ordered source list assembled for merging, a present
cover item occupies index 0 and a present back-cover item occupies the
last index, whatever the inner-page sort mode. -/
theorem c3_cover_position (fs : FS) (sort_by : String) (e : FileEntry) :
    ((assemble_order fs sort_by).1 = some e →
      (assemble_order fs sort_by).2.2.head? = some e) ∧
    ((assemble_order fs sort_by).2.1 = some e →
      (assemble_order fs sort_by).2.2.getLast? = some e) := by
  have horder : (assemble_order fs sort_by).2.2 =
      build_pdf_order (assemble_order fs sort_by).1 (assemble_order fs sort_by).2.1
        (get_all_files (find_cover_files fs).2.2 sort_by).1 := rfl
  constructor
  · intro h
    rw [horder, h]
    exact build_pdf_order_head e _ _
  · intro h
    rw [horder, h]
    exact build_pdf_order_last _ e _

/-- Witness for C3 on the empty directory, where both covers are
synthesized. -/
theorem c3_cover_position_witness :
    (assemble_order emptyDir "name").2.2.head? = some (coverEntry "cover" 0) ∧
    (assemble_order emptyDir "name").2.2.getLast? =
      some (coverEntry "back_cover" 1) := by
  have h1 := (c3_cover_position emptyDir "name" (coverEntry "cover" 0)).1 (by decide)
  have h2 := (c3_cover_position emptyDir "name" (coverEntry "back_cover" 1)).2 (by decide)
  exact ⟨h1, h2⟩

/-- C4 counterexample: a document that fails direct open but would open
with 3 pages after a sanitize rewrite is not included in the merge output
— the merge appends none of its pages and reports failure, instead of the
3 pages the claim requires. -/
theorem c4_counterexample :
    sanitizableEntry.content = Content.pdfSanitizable 3 ∧
    merge_pdfs [sanitizableEntry] = (false, 0) ∧
    (mergeLoop [sanitizableEntry]).1 ≠ 3 := by decide

/-- C4 (amended): the merge engine performs no sanitize-and-retry: a
source document that fails to open directly — in particular one that
would open after a sanitize rewrite — is skipped as an error, and merging
proceeds over the remaining items unchanged. -/
theorem c4_no_sanitize_retry (f : FileEntry) (l : List FileEntry) (n : Nat)
    (h : f.content = Content.pdfSanitizable n) :
    readPdfPages f.content = none ∧ merge_pdfs (f :: l) = merge_pdfs l := by
  have hr : readPdfPages f.content = none := by rw [h]; rfl
  refine ⟨hr, ?_⟩
  unfold merge_pdfs
  have hml : mergeLoop (f :: l) = mergeLoop l := by
    simp [mergeLoop, hr]
  rw [hml]

/-- Witness for C4 at the concrete sanitizable document next to a
readable one. -/
theorem c4_no_sanitize_retry_witness :
    readPdfPages sanitizableEntry.content = none ∧
    merge_pdfs (sanitizableEntry :: [twoPageEntry]) = merge_pdfs [twoPageEntry] :=
  c4_no_sanitize_retry sanitizableEntry [twoPageEntry] 3 (by decide)

/-- C5 counterexample: a run whose merge fails (all sources corrupt) ends
with the temporary conversion directory still present — it is not removed
on the failure path. -/
theorem c5_counterexample :
    (create_catalog allCorruptDir "name").success = false ∧
    (create_catalog allCorruptDir "name").finalFS.tempDirExists = true := by
  decide

/-- C5 (amended): the temporary conversion directory is removed on the
success path only: every successful run ends with the directory gone and
its contents deleted, and every unsuccessful run (merge failure or the
nothing-found early return) ends with the directory still present. -/
theorem c5_cleanup_success_only (fs : FS) (sort_by : String) :
    ((create_catalog fs sort_by).success = true →
      (create_catalog fs sort_by).finalFS.tempDirExists = false ∧
      (create_catalog fs sort_by).finalFS.tempFiles = []) ∧
    ((create_catalog fs sort_by).success = false →
      (create_catalog fs sort_by).finalFS.tempDirExists = true) := by
  have htd : ∀ (x : FS) (s : String),
      (get_all_files x s).2.1.tempDirExists = true := fun _ _ => rfl
  unfold create_catalog
  dsimp only
  split_ifs <;> constructor <;> intro h <;> simp_all [cleanupTemp, htd]

/-- Witness for C5: a succeeding run on a one-image directory cleans the
temp directory up; a failing run on an all-corrupt directory leaves it in
place. -/
theorem c5_cleanup_success_only_witness :
    ((create_catalog oneImageDir "name").finalFS.tempDirExists = false ∧
     (create_catalog oneImageDir "name").finalFS.tempFiles = []) ∧
    (create_catalog allCorruptDir "name").finalFS.tempDirExists = true := by
  have h1 := (c5_cleanup_success_only oneImageDir "name").1 (by decide)
  have h2 := (c5_cleanup_success_only allCorruptDir "name").2 (by decide)
  exact ⟨h1, h2⟩

/-- C6 counterexample: a previously produced catalog output
(`catalog.pdf`, the default output name) found in the input directory is
not excluded — it is collected as an inner page and would be re-merged. -/
theorem c6_counterexample :
    pdfEntry "catalog" 0 (Content.pdfDoc 4) ∈ (get_all_files staleCatalogDir "name").1 ∧
    (pdfEntry "catalog" 0 (Content.pdfDoc 4)).fname.fullName = "catalog.pdf" := by
  decide

/-- C6 (amended): during classification every document-suffixed file that
is not cover-named and not the temporary directory is included as an
inner page — no catalog-output name is excluded. -/
theorem c6_no_output_name_exclusion (fs : FS) (sort_by : String) (f : FileEntry)
    (hmem : f ∈ fs.dirFiles) (hfile : f.isFile = true)
    (hnc : f.fname.lowerName ≠ lowerString cover_filename)
    (hnb : f.fname.lowerName ≠ lowerString back_cover_filename)
    (hnt : f.fname.fullName ≠ temp_dir_name)
    (hs : f.fname.suffixLower = ".pdf") :
    f ∈ (get_all_files fs sort_by).1 := by
  have h := mem_collectFiles_pdf fs.dirFiles fs.clock f hmem hfile hnc hnb hnt hs
  have heq : (get_all_files fs sort_by).1 =
      sortFiles sort_by (collectFiles fs.dirFiles fs.clock).1 := rfl
  rw [heq, mem_sortFiles]
  exact h

/-- Witness for C6 at the stale-catalog directory. -/
theorem c6_no_output_name_exclusion_witness :
    pdfEntry "page1" 1 (Content.pdfDoc 1) ∈ (get_all_files staleCatalogDir "name").1 :=
  c6_no_output_name_exclusion staleCatalogDir "name" (pdfEntry "page1" 1 (Content.pdfDoc 1))
    (by decide) (by decide) (by decide) (by decide) (by decide) (by decide)

/-- C8: the merge reports failure exactly when zero items reach the
pages-appended state, and a source that fails to parse or has zero pages
is skipped without affecting the result of the run. -/
theorem c8_failure_iff_none_appended (pdf_paths : List FileEntry) (f : FileEntry) :
    ((merge_pdfs pdf_paths).1 = false ↔ (mergeLoop pdf_paths).2 = 0) ∧
    (readPdfPages f.content = none ∨ readPdfPages f.content = some 0 →
      merge_pdfs (f :: pdf_paths) = merge_pdfs pdf_paths) := by
  constructor
  · unfold merge_pdfs
    by_cases h : (mergeLoop pdf_paths).1 = 0
    · simp [h, (mergeLoop_zero_iff pdf_paths).mp h]
    · simp only [h, if_neg, ite_false]
      constructor
      · intro hc
        simp at hc
      · intro hc
        exact absurd ((mergeLoop_zero_iff pdf_paths).mpr hc) h
  · intro h
    have hml : mergeLoop (f :: pdf_paths) = mergeLoop pdf_paths := by
      rcases h with h | h <;> simp [mergeLoop, h]
    unfold merge_pdfs
    rw [hml]

/-- Witness for C8: one readable two-page source preceded by a corrupt
one. -/
theorem c8_failure_iff_none_appended_witness :
    ((merge_pdfs [twoPageEntry]).1 = false ↔ (mergeLoop [twoPageEntry]).2 = 0) ∧
    merge_pdfs (corruptEntry :: [twoPageEntry]) = merge_pdfs [twoPageEntry] := by
  have h := c8_failure_iff_none_appended [twoPageEntry] corruptEntry
  exact ⟨h.1, h.2 (Or.inl (by decide))⟩

/-- The seen-set loop keeps literal path strings unique and never emits a
path already seen. -/
theorem removeDuplicatesGo_nodup (l : List IPath) (seen : List String) :
    ((removeDuplicatesGo seen l).map IPath.pathStr).Nodup ∧
    ∀ q ∈ removeDuplicatesGo seen l, q.pathStr ∉ seen := by
  induction l generalizing seen with
  | nil => simp [removeDuplicatesGo]
  | cons f rest ih =>
    by_cases h : f.pathStr ∈ seen
    · simpa [removeDuplicatesGo, h] using ih seen
    · obtain ⟨h1, h2⟩ := ih (f.pathStr :: seen)
      simp only [removeDuplicatesGo, h, if_neg, not_false_iff, ite_false, List.map_cons,
        List.nodup_cons, List.mem_map]
      refine ⟨⟨?_, h1⟩, ?_⟩
      · rintro ⟨q, hq, hqs⟩
        exact h2 q hq (hqs ▸ List.mem_cons_self _ _)
      · intro q hq
        rcases List.mem_cons.mp hq with rfl | hq'
        · exact h
        · intro hmem
          exact h2 q hq' (List.mem_cons_of_mem _ hmem)

/-- Every emitted path was discovered. -/
theorem removeDuplicatesGo_subset (l : List IPath) (seen : List String) :
    ∀ q ∈ removeDuplicatesGo seen l, q ∈ l := by
  induction l generalizing seen with
  | nil => simp [removeDuplicatesGo]
  | cons f rest ih =>
    intro q hq
    by_cases h : f.pathStr ∈ seen
    · simp only [removeDuplicatesGo, h, if_pos] at hq
      exact List.mem_cons_of_mem f (ih seen q hq)
    · simp only [removeDuplicatesGo, h, if_neg, not_false_iff, ite_false] at hq
      rcases List.mem_cons.mp hq with rfl | hq'
      · exact List.mem_cons_self _ _
      · exact List.mem_cons_of_mem f (ih (f.pathStr :: seen) q hq')

/-- Every discovered path not yet seen is represented in the output by an
entry with its literal path string. -/
theorem removeDuplicatesGo_represents (l : List IPath) (seen : List String)
    (p : IPath) (hp : p ∈ l) (hs : p.pathStr ∉ seen) :
    ∃ q ∈ removeDuplicatesGo seen l, q.pathStr = p.pathStr := by
  induction l generalizing seen with
  | nil => cases hp
  | cons f rest ih =>
    by_cases hfs : f.pathStr ∈ seen
    · rcases List.mem_cons.mp hp with rfl | hp'
      · exact absurd hfs hs
      · simpa [removeDuplicatesGo, hfs] using ih seen hp' hs
    · by_cases hpf : p.pathStr = f.pathStr
      · refine ⟨f, ?_, hpf.symm⟩
        simp [removeDuplicatesGo, hfs]
      · rcases List.mem_cons.mp hp with rfl | hp'
        · exact absurd rfl hpf
        · have hs' : p.pathStr ∉ f.pathStr :: seen := by
            simp [hpf, hs]
          obtain ⟨q, hq, hqs⟩ := ih (f.pathStr :: seen) hp' hs'
          refine ⟨q, ?_, hqs⟩
          simp only [removeDuplicatesGo, hfs, if_neg, not_false_iff, ite_false]
          exact List.mem_cons_of_mem f hq

/-- C7 counterexample: two distinct literal paths aliasing the same
resolved file are both kept — the final ordered list carries two entries
for that resolved path, not one. -/
theorem c7_counterexample :
    aliasA.resolved = aliasB.resolved ∧ aliasA.pathStr ≠ aliasB.pathStr ∧
    (collect_image_paths [aliasA, aliasB]).countP
      (fun p => p.resolved == "target.jpg") = 2 ∧ (2 : Nat) ≠ 1 := by decide

/-- C7 (amended): duplicate removal compares literal path values, not
resolved targets: each literal path keeps exactly its first occurrence
(the output names are duplicate-free, every kept entry was discovered,
every discovered literal path stays represented), and the final list is a
permutation of the deduplicated one — while distinct literal aliases of
one resolved file are all kept, as the counterexample shows. -/
theorem c7_dedup_by_literal_path (l : List IPath) :
    ((removeDuplicates l).map IPath.pathStr).Nodup ∧
    (∀ q ∈ removeDuplicates l, q ∈ l) ∧
    (∀ p ∈ l, ∃ q ∈ removeDuplicates l, q.pathStr = p.pathStr) ∧
    List.Perm (collect_image_paths l) (removeDuplicates l) := by
  refine ⟨(removeDuplicatesGo_nodup l []).1, removeDuplicatesGo_subset l [], ?_, ?_⟩
  · intro p hp
    exact removeDuplicatesGo_represents l [] p hp (List.not_mem_nil _)
  · exact sortLe_perm lePath (removeDuplicates l)

/-- Witness for C7: the alias pair. -/
theorem c7_dedup_by_literal_path_witness :
    ∃ q ∈ removeDuplicates [aliasA, aliasB], q.pathStr = aliasB.pathStr := by
  have h := c7_dedup_by_literal_path [aliasA, aliasB]
  exact h.2.2.1 aliasB (by decide)

/-- Any-membership distributes over directory concatenation. -/
theorem containsName_append (l1 l2 : List FileEntry) (s : String) :
    containsName (l1 ++ l2) s = (containsName l1 s || containsName l2 s) := by
  simp [containsName]

/-- C9: whenever the per-image converter reports success, the document it
wrote reads back as exactly one page whose content stream is non-empty
(it holds the drawImage operator); and whenever the written file does not
exceed the 1000-byte sanity threshold, the converter reports failure. -/
theorem c9_roundtrip_one_page (img : ImageFile) (env : RenderEnv)
    (page_width page_height margin : ℚ)
    (h : (convert_jpg_to_pdf_model img env page_width page_height margin).2 = true) :
    (∃ d, (convert_jpg_to_pdf_model img env page_width page_height margin).1 = some d ∧
      d.pages.length = 1 ∧ ∀ p ∈ d.pages, p ≠ []) ∧
    1000 < env.outSize := by
  unfold convert_jpg_to_pdf_model at h ⊢
  by_cases hd : img.decodeOk
  · simp only [hd, not_true, if_neg, ite_false, Bool.not_eq_true, not_false_iff,
      ite_true, if_pos] at h ⊢
    constructor
    · refine ⟨_, rfl, rfl, ?_⟩
      intro p hp
      rcases List.mem_cons.mp hp with rfl | hp'
      · simp
      · cases hp'
    · simpa using of_decide_eq_true h
  · simp [hd] at h

/-- Witness for C9 at a 4×3 image on letter geometry with a 5000-byte
output. -/
theorem c9_roundtrip_one_page_witness :
    (∃ d, (convert_jpg_to_pdf_model ⟨true, 4, 3⟩ ⟨5000⟩ 612 792 36).1 = some d ∧
      d.pages.length = 1 ∧ ∀ p ∈ d.pages, p ≠ []) ∧
    1000 < (5000 : Nat) := by
  have h := c9_roundtrip_one_page ⟨true, 4, 3⟩ ⟨5000⟩ 612 792 36 (by decide)
  exact ⟨h.1, h.2⟩

/-- C10: when the scan finds no existing cover (or back cover), the run
synthesizes it into the input directory itself: the directory listing is
fixed after cover resolution — neither collection, merging nor the
temp-directory cleanup touches it — and the final state still lists
`cover.pdf` (resp. `back_cover.pdf`) after the run, whether it succeeded
or failed. -/
theorem c10_generated_covers_persist (fs : FS) (sort_by : String) :
    (create_catalog fs sort_by).finalFS.dirFiles = (find_cover_files fs).2.2.dirFiles ∧
    ((scanCovers fs.dirFiles).1 = none →
      containsName (create_catalog fs sort_by).finalFS.dirFiles
        (lowerString cover_filename) = true) ∧
    ((scanCovers fs.dirFiles).2 = none →
      containsName (create_catalog fs sort_by).finalFS.dirFiles
        (lowerString back_cover_filename) = true) := by
  have hdir : (create_catalog fs sort_by).finalFS.dirFiles =
      (find_cover_files fs).2.2.dirFiles := by
    unfold create_catalog
    dsimp only
    split_ifs <;> rfl
  refine ⟨hdir, ?_, ?_⟩
  · intro h1
    rw [hdir]
    have hcE : ∀ k, containsName [coverEntry "cover" k]
        (lowerString cover_filename) = true := fun k => rfl
    cases hs2 : (scanCovers fs.dirFiles).2 with
    | none =>
      have heq : (find_cover_files fs).2.2.dirFiles =
          (fs.dirFiles ++ [coverEntry "cover" fs.clock]) ++
            [coverEntry "back_cover" (fs.clock + 1)] := by
        simp [find_cover_files, h1, hs2]
      rw [heq, containsName_append, containsName_append, hcE]
      simp
    | some f =>
      have heq : (find_cover_files fs).2.2.dirFiles =
          fs.dirFiles ++ [coverEntry "cover" fs.clock] := by
        simp [find_cover_files, h1, hs2]
      rw [heq, containsName_append, hcE]
      simp
  · intro h2
    rw [hdir]
    have hbE : ∀ k, containsName [coverEntry "back_cover" k]
        (lowerString back_cover_filename) = true := fun k => rfl
    cases hs1 : (scanCovers fs.dirFiles).1 with
    | none =>
      have heq : (find_cover_files fs).2.2.dirFiles =
          (fs.dirFiles ++ [coverEntry "cover" fs.clock]) ++
            [coverEntry "back_cover" (fs.clock + 1)] := by
        simp [find_cover_files, hs1, h2]
      rw [heq, containsName_append, hbE]
      simp
    | some f =>
      have heq : (find_cover_files fs).2.2.dirFiles =
          fs.dirFiles ++ [coverEntry "back_cover" fs.clock] := by
        simp [find_cover_files, hs1, h2]
      rw [heq, containsName_append, hbE]
      simp

/-- Witness for C10 on the empty input directory. -/
theorem c10_generated_covers_persist_witness :
    containsName (create_catalog emptyDir "name").finalFS.dirFiles
      (lowerString cover_filename) = true ∧
    containsName (create_catalog emptyDir "name").finalFS.dirFiles
      (lowerString back_cover_filename) = true := by
  have h := c10_generated_covers_persist emptyDir "name"
  exact ⟨h.2.1 (by decide), h.2.2 (by decide)⟩

/-- C2 counterexample: on a directory with five decodable images, one
corrupt image and no cover files, the produced catalog has 7 pages, not
the 5 the claim states, and a cover item is present in the assembled
order rather than absent. -/
theorem c2_counterexample :
    (create_catalog partialFailureDir "name").catalogPages = some 7 ∧
    some (7 : Nat) ≠ some (5 : Nat) ∧
    (assemble_order partialFailureDir "name").1 ≠ none := by decide

/-- C2 (amended): a run on a directory of image files among which exactly
five are decodable and exactly one is corrupt, with no cover files,
succeeds with one reported skipped item and produces a catalog of 7
pages: the five converted pages plus the synthesized cover and back
cover. -/
theorem c2_partial_failure_run (fs : FS) (sort_by : String)
    (hshape : ∀ f ∈ fs.dirFiles, f.isFile = true ∧
      f.fname.suffixLower ∈ image_exts ∧
      f.fname.lowerName ≠ lowerString cover_filename ∧
      f.fname.lowerName ≠ lowerString back_cover_filename ∧
      f.fname.fullName ≠ temp_dir_name ∧
      (f.content = Content.jpgGood ∨ f.content = Content.jpgCorrupt))
    (hgood : fs.dirFiles.countP (fun f => f.content == Content.jpgGood) = 5)
    (hbad : fs.dirFiles.countP (fun f => f.content == Content.jpgCorrupt) = 1) :
    (create_catalog fs sort_by).success = true ∧
    (create_catalog fs sort_by).catalogPages = some 7 ∧
    (create_catalog fs sort_by).skipped = 1 := by
  have hscan : scanCovers fs.dirFiles = (none, none) :=
    scanCovers_no_pdf fs.dirFiles
      (fun f hf => image_ext_ne_pdf _ (hshape f hf).2.1)
  have hfind := find_cover_files_create fs hscan
  have hcovers_names : ∀ f ∈ [coverEntry "cover" fs.clock,
      coverEntry "back_cover" (fs.clock + 1)],
      f.fname.lowerName = lowerString cover_filename ∨
      f.fname.lowerName = lowerString back_cover_filename := by
    intro f hf
    rcases List.mem_cons.mp hf with rfl | hf'
    · exact Or.inl rfl
    · rcases List.mem_cons.mp hf' with rfl | hf''
      · exact Or.inr rfl
      · cases hf''
  have hcollect_eq : collectFiles (fs.dirFiles ++ [coverEntry "cover" fs.clock,
      coverEntry "back_cover" (fs.clock + 1)]) (fs.clock + 1 + 1) =
      collectFiles fs.dirFiles (fs.clock + 1 + 1) :=
    collectFiles_append_covers fs.dirFiles _ _ hcovers_names
  obtain ⟨hall1, hlen, hskip⟩ :=
    collectFiles_all_jpg fs.dirFiles (fs.clock + 1 + 1) hshape
  have hinner : mergeLoop (sortFiles sort_by
      (collectFiles fs.dirFiles (fs.clock + 1 + 1)).1) = (5, 5) := by
    rw [mergeLoop_perm _ _ (sortFiles_perm sort_by _), mergeLoop_all_ones _ hall1,
      hlen, hgood]
  have horder : ∀ inner : List FileEntry,
      build_pdf_order (some (coverEntry "cover" fs.clock))
        (some (coverEntry "back_cover" (fs.clock + 1))) inner =
      coverEntry "cover" fs.clock ::
        (inner ++ [coverEntry "back_cover" (fs.clock + 1)]) := by
    intro inner
    simp [build_pdf_order]
  have hml : mergeLoop (coverEntry "cover" fs.clock ::
      (sortFiles sort_by (collectFiles fs.dirFiles (fs.clock + 1 + 1)).1 ++
        [coverEntry "back_cover" (fs.clock + 1)])) = (7, 7) := by
    have hbE1 : mergeLoop [coverEntry "back_cover" (fs.clock + 1)] = (1, 1) := rfl
    have htail : mergeLoop (sortFiles sort_by
        (collectFiles fs.dirFiles (fs.clock + 1 + 1)).1 ++
        [coverEntry "back_cover" (fs.clock + 1)]) = (6, 6) := by
      rw [mergeLoop_append, hinner, hbE1]
      decide
    have hcE1 : readPdfPages (coverEntry "cover" fs.clock).content = some 1 := rfl
    simp [mergeLoop, hcE1, htail]
  have hmerge : merge_pdfs (build_pdf_order (some (coverEntry "cover" fs.clock))
      (some (coverEntry "back_cover" (fs.clock + 1)))
      (sortFiles sort_by (collectFiles fs.dirFiles (fs.clock + 1 + 1)).1)) =
      (true, 7) := by
    rw [horder]
    unfold merge_pdfs
    rw [hml]
    norm_num
  have hget : get_all_files
      (⟨(fs.dirFiles ++ [coverEntry "cover" fs.clock]) ++
          [coverEntry "back_cover" (fs.clock + 1)],
        fs.tempFiles, fs.tempDirExists, fs.clock + 1 + 1⟩ : FS) sort_by =
      (sortFiles sort_by (collectFiles fs.dirFiles (fs.clock + 1 + 1)).1,
       ⟨(fs.dirFiles ++ [coverEntry "cover" fs.clock]) ++
          [coverEntry "back_cover" (fs.clock + 1)],
        fs.tempFiles ++ (collectFiles fs.dirFiles (fs.clock + 1 + 1)).2.1, true,
        (collectFiles fs.dirFiles (fs.clock + 1 + 1)).2.2.2⟩,
       (collectFiles fs.dirFiles (fs.clock + 1 + 1)).2.2.1) := by
    simp [get_all_files, hcollect_eq]
  unfold create_catalog
  dsimp only
  rw [hfind]
  dsimp only
  rw [hget]
  dsimp only
  simp [hmerge, hskip, hbad]

/-- Witness for C2 at the concrete partial-failure directory. -/
theorem c2_partial_failure_run_witness :
    (create_catalog partialFailureDir "name").success = true ∧
    (create_catalog partialFailureDir "name").catalogPages = some 7 ∧
    (create_catalog partialFailureDir "name").skipped = 1 :=
  c2_partial_failure_run partialFailureDir "name" (by decide) (by decide) (by decide)

end Catalog
